import Mathlib

/-!
Verification development for the Byzantine fault-injection proxy and
message-translation toolkit (Go sources).  The Go core is shallowly
embedded: Go strings become Lean `String`, `*big.Int` becomes
`Option Int` (nil pointer = `none`), `time.Time` becomes `Int`
(nanoseconds from the Go zero time, so `IsZero` is `= 0`),
`time.Duration` becomes `Int` (nanoseconds), byte slices become
`List Nat`, and Go maps with `interface` values become association
lists over a tagged value type.  Fallible Go functions returning
`(T, error)` become `Except` values; functions returning a bare
`error` become `Option` of the error.  Deep-clone of a value under
value semantics is the identity.
-/

set_option maxRecDepth 4000

namespace ByzSim

/-- Go `abstraction.MsgType` is a string type. -/
abbrev MsgType := String

/-- Go `abstraction.ChainType` is a string type. -/
abbrev ChainType := String

def MsgTypeProposal : MsgType := "proposal"

def MsgTypePrepare : MsgType := "prepare"

def MsgTypeVote : MsgType := "vote"

def MsgTypeCommit : MsgType := "commit"

def MsgTypeViewChange : MsgType := "view_change"

def MsgTypeNewView : MsgType := "new_view"

def MsgTypeBlock : MsgType := "block"

def MsgTypePrevote : MsgType := "prevote"

def MsgTypePrecommit : MsgType := "precommit"

def ChainTypeCometBFT : ChainType := "cometbft"

def ChainTypeHyperledger : ChainType := "hyperledger"

def ChainTypeKaia : ChainType := "kaia"

/-- One millisecond in nanoseconds (`time.Millisecond`). -/
def millisecond : Int := 1000000

/-- Go `PartSetHeader`. -/
structure PartSetHeader where
  total : Nat
  hash : List Nat
deriving DecidableEq

/-- Go `BlockID`. -/
structure BlockID where
  hash : String
  prevHash : String
  partSetHeader : PartSetHeader
deriving DecidableEq

/-- Tagged value for Go `interface` values stored in `Extensions` and
`Metadata` maps.  Each constructor corresponds to one dynamic type the
source actually stores or asserts. -/
inductive ExtVal where
  | str (s : String)
  | i32 (n : Int)
  | i64 (n : Int)
  | u32 (n : Nat)
  | bytes (b : List Nat)
  | flag (b : Bool)
  | strList (l : List String)
  | psh (p : PartSetHeader)
deriving DecidableEq

/-- Go `CometBFTConsensusMessage` (adapter package).  Field order and
zero values follow the Go struct. -/
structure CometBFTConsensusMessage where
  height : Option Int
  round : Option Int
  timestamp : Int
  version : String
  messageType : String
  step : Nat
  lastCommitRound : Int
  secondsSinceStartTime : Int
  blockID : BlockID
  proposerAddress : String
  signature : String
  polRound : Int
  voteType : String
  validatorAddress : String
  validatorIndex : Int
  voteExtension : List Nat
  extensionSignature : List Nat
  partIndex : Nat
  partBytes : List Nat
  partProof : List Nat
  isCommit : Bool
  blockParts : List String
  votesBitArray : List String
  proposalPOLRound : Int
  proposalPOL : List String
deriving DecidableEq

/-- The Go zero value of `CometBFTConsensusMessage`. -/
def zeroCometMsg : CometBFTConsensusMessage where
  height := none
  round := none
  timestamp := 0
  version := ""
  messageType := ""
  step := 0
  lastCommitRound := 0
  secondsSinceStartTime := 0
  blockID := { hash := "", prevHash := "", partSetHeader := { total := 0, hash := [] } }
  proposerAddress := ""
  signature := ""
  polRound := 0
  voteType := ""
  validatorAddress := ""
  validatorIndex := 0
  voteExtension := []
  extensionSignature := []
  partIndex := 0
  partBytes := []
  partProof := []
  isCommit := false
  blockParts := []
  votesBitArray := []
  proposalPOLRound := 0
  proposalPOL := []

/-- Wire payload bytes.  The core treats payloads as opaque bytes that
either parse (under `encoding/json`) to a `CometBFTConsensusMessage`
or do not; we embed a payload as the parse outcome itself. -/
inductive Payload where
  | cometJSON (m : CometBFTConsensusMessage)
  | unparseable (s : String)
deriving DecidableEq

/-- Go `abstraction.RawConsensusMessage`. -/
structure RawConsensusMessage where
  chainType : ChainType
  chainID : String
  messageType : String
  payload : Payload
  encoding : String
  timestamp : Int
  metadata : List (String × ExtVal)
deriving DecidableEq

/-- Go `abstraction.ViewChangeEntry`. -/
structure ViewChangeEntry where
  view : Option Int
  height : Option Int
  validator : String
  signature : String
deriving DecidableEq

/-- Go `abstraction.CanonicalMessage`.  `mtype` is the Go field `Type`. -/
structure CanonicalMessage where
  chainID : String
  height : Option Int
  round : Option Int
  view : Option Int
  timestamp : Int
  mtype : MsgType
  blockHash : String
  prevHash : String
  proposer : String
  validator : String
  signature : String
  commitSeals : List String
  viewChanges : List ViewChangeEntry
  extensions : List (String × ExtVal)
  rawPayload : Option Payload
deriving DecidableEq

/-- Go `abstraction.MessageValidationError`. -/
structure MessageValidationError where
  field : String
  message : String
  code : String
deriving DecidableEq

/-- Go `abstraction.ErrChainMismatch`. -/
def ErrChainMismatch : MessageValidationError :=
  { field := "", message := "chain type mismatch", code := "CHAIN_MISMATCH" }

/-- Association-list lookup for extension / metadata maps. -/
def extLookup (m : List (String × ExtVal)) (k : String) : Option ExtVal :=
  match m with
  | [] => none
  | (k2, v) :: rest => if k2 = k then some v else extLookup rest k

/-- Association-list insert-or-overwrite (Go map assignment). -/
def extSet (m : List (String × ExtVal)) (k : String) (v : ExtVal) : List (String × ExtVal) :=
  match m with
  | [] => [(k, v)]
  | (k2, v2) :: rest => if k2 = k then (k2, v) :: rest else (k2, v2) :: extSet rest k v

/-- Go `CometBFTMapper.mapMessageType`. -/
def mapMessageType (cometType : String) : MsgType :=
  if cometType = "Proposal" then MsgTypeProposal
  else if cometType = "Vote" then MsgTypeVote
  else if cometType = "BlockPart" then MsgTypeBlock
  else if cometType = "NewRoundStep" ∨ cometType = "NewValidBlock" ∨ cometType = "HasVote"
      ∨ cometType = "VoteSetMaj23" ∨ cometType = "VoteSetBits" ∨ cometType = "ProposalPOL"
    then MsgTypeProposal
  else cometType

/-- Parsing step of `CometBFTMapper.ToCanonical`: the switch on
`raw.Encoding` with the JSON unmarshal in each supported arm. -/
def parsePayload (raw : RawConsensusMessage) :
    Except MessageValidationError CometBFTConsensusMessage :=
  if raw.encoding = "json" then
    match raw.payload with
    | .cometJSON m => .ok m
    | .unparseable _ =>
      .error { field := "payload", message := "failed to parse JSON", code := "DECODE_FAILURE" }
  else if raw.encoding = "proto" then
    match raw.payload with
    | .cometJSON m => .ok m
    | .unparseable _ =>
      .error { field := "payload", message := "failed to parse protobuf as JSON",
               code := "DECODE_FAILURE" }
  else
    .error { field := "encoding", message := "unsupported encoding: " ++ raw.encoding,
             code := "DECODE_FAILURE" }

/-- The per-message-type switch at the end of `ToCanonical` that fills
type-specific canonical fields and extensions. -/
def fillTypeSpecific (c : CanonicalMessage) (m : CometBFTConsensusMessage) : CanonicalMessage :=
  match m.messageType with
  | "NewRoundStep" =>
    let e1 := extSet c.extensions "step" (.u32 m.step)
    let e2 := extSet e1 "last_commit_round" (.i32 m.lastCommitRound)
    let e3 := extSet e2 "seconds_since_start_time" (.i64 m.secondsSinceStartTime)
    { c with extensions := e3 }
  | "Proposal" =>
    let e1 := extSet c.extensions "pol_round" (.i32 m.polRound)
    let e2 := extSet e1 "part_set_header" (.psh m.blockID.partSetHeader)
    { c with
      blockHash := m.blockID.hash
      prevHash := m.blockID.prevHash
      proposer := m.proposerAddress
      signature := m.signature
      extensions := e2 }
  | "Vote" =>
    let e1 := extSet c.extensions "vote_type" (.str m.voteType)
    let e2 := extSet e1 "validator_index" (.i32 m.validatorIndex)
    let e3 := extSet e2 "extension" (.bytes m.voteExtension)
    let e4 := extSet e3 "extension_signature" (.bytes m.extensionSignature)
    { c with
      blockHash := m.blockID.hash
      validator := m.validatorAddress
      signature := m.signature
      extensions := e4 }
  | "BlockPart" =>
    let e1 := extSet c.extensions "part_index" (.u32 m.partIndex)
    let e2 := extSet e1 "part_bytes" (.bytes m.partBytes)
    let e3 := extSet e2 "part_proof" (.bytes m.partProof)
    { c with
      blockHash := m.blockID.hash
      extensions := e3 }
  | "NewValidBlock" =>
    let e1 := extSet c.extensions "is_commit" (.flag m.isCommit)
    let e2 := extSet e1 "block_parts" (.strList m.blockParts)
    let e3 := extSet e2 "part_set_header" (.psh m.blockID.partSetHeader)
    { c with
      blockHash := m.blockID.hash
      extensions := e3 }
  | "VoteSetMaj23" =>
    { c with
      blockHash := m.blockID.hash
      extensions := extSet c.extensions "vote_type" (.str m.voteType) }
  | "VoteSetBits" =>
    let e1 := extSet c.extensions "vote_type" (.str m.voteType)
    let e2 := extSet e1 "votes_bit_array" (.strList m.votesBitArray)
    { c with
      blockHash := m.blockID.hash
      extensions := e2 }
  | "HasVote" =>
    let e1 := extSet c.extensions "vote_type" (.str m.voteType)
    let e2 := extSet e1 "validator_index" (.i32 m.validatorIndex)
    { c with extensions := e2 }
  | "ProposalPOL" =>
    let e1 := extSet c.extensions "proposal_pol_round" (.i32 m.proposalPOLRound)
    let e2 := extSet e1 "proposal_pol" (.strList m.proposalPOL)
    { c with extensions := e2 }
  | _ => c

/-- Go `CometBFTMapper.ToCanonical`.  The mapper value is just its
`chainID` string. -/
def ToCanonical (chainID : String) (raw : RawConsensusMessage) :
    Except MessageValidationError CanonicalMessage :=
  if raw.chainType ≠ ChainTypeCometBFT then .error ErrChainMismatch
  else
    match parsePayload raw with
    | .error e => .error e
    | .ok cometMsg =>
      let canonical : CanonicalMessage :=
        { chainID := chainID
          height := cometMsg.height
          round := cometMsg.round
          view := none
          timestamp := cometMsg.timestamp
          mtype := mapMessageType cometMsg.messageType
          blockHash := ""
          prevHash := ""
          proposer := ""
          validator := ""
          signature := ""
          commitSeals := []
          viewChanges := []
          extensions :=
            [("cometbft_version", .str cometMsg.version),
             ("step", .u32 cometMsg.step),
             ("last_commit_round", .i32 cometMsg.lastCommitRound)]
          rawPayload := some raw.payload }
      .ok (fillTypeSpecific canonical cometMsg)

/-- UTF-8 bytes of a string; the sources only apply this to ASCII hex
strings, where it agrees with the byte values of the characters. -/
def strBytes (s : String) : List Nat := s.data.map Char.toNat

/-- Go `CometBFTMapper.FromCanonical` for a non-nil message: the switch
on `msg.Type` that builds the chain-specific message. -/
def buildCometMsg (msg : CanonicalMessage) : CometBFTConsensusMessage :=
  let base := { zeroCometMsg with
    height := msg.height
    round := msg.round
    timestamp := msg.timestamp
    version := "0.38.17" }
  if msg.mtype = MsgTypeProposal then
    { base with
      messageType := "Proposal"
      blockID :=
        { hash := msg.blockHash
          prevHash := msg.prevHash
          partSetHeader := { total := 1, hash := strBytes msg.blockHash } }
      proposerAddress := msg.proposer
      signature := msg.signature
      polRound :=
        match extLookup msg.extensions "pol_round" with
        | some (.i32 n) => n
        | _ => base.polRound }
  else if msg.mtype = MsgTypePrevote then
    { base with
      messageType := "Vote"
      voteType := "PrevoteType"
      blockID := { hash := msg.blockHash, prevHash := "", partSetHeader := { total := 0, hash := [] } }
      validatorAddress := msg.validator
      signature := msg.signature }
  else if msg.mtype = MsgTypePrecommit then
    { base with
      messageType := "Vote"
      voteType := "PrecommitType"
      blockID := { hash := msg.blockHash, prevHash := "", partSetHeader := { total := 0, hash := [] } }
      validatorAddress := msg.validator
      signature := msg.signature
      voteExtension :=
        match extLookup msg.extensions "extension" with
        | some (.bytes b) => b
        | _ => base.voteExtension
      extensionSignature :=
        match extLookup msg.extensions "extension_signature" with
        | some (.bytes b) => b
        | _ => base.extensionSignature }
  else if msg.mtype = MsgTypeBlock then
    { base with
      messageType := "BlockPart"
      blockID := { hash := msg.blockHash, prevHash := "", partSetHeader := { total := 0, hash := [] } }
      partIndex :=
        match extLookup msg.extensions "part_index" with
        | some (.u32 n) => n
        | _ => base.partIndex
      partBytes :=
        match extLookup msg.extensions "part_bytes" with
        | some (.bytes b) => b
        | _ => base.partBytes }
  else
    { base with
      messageType := "NewRoundStep"
      step :=
        match extLookup msg.extensions "step" with
        | some (.u32 n) => n
        | _ => base.step
      lastCommitRound :=
        match extLookup msg.extensions "last_commit_round" with
        | some (.i32 n) => n
        | _ => base.lastCommitRound }

/-- Go `CometBFTMapper.FromCanonical`.  `now` is the wall clock read by
`time.Now()` when stamping the produced raw message.  The
`json.Marshal` step cannot fail on this struct, so the serialized
payload is the message itself. -/
def FromCanonical (chainID : String) (now : Int) (msg : Option CanonicalMessage) :
    Except MessageValidationError RawConsensusMessage :=
  match msg with
  | none =>
    .error { field := "message", message := "message cannot be nil", code := "MISSING_FIELD" }
  | some m =>
    let cometMsg := buildCometMsg m
    .ok { chainType := ChainTypeCometBFT
          chainID := chainID
          messageType := cometMsg.messageType
          payload := .cometJSON cometMsg
          encoding := "json"
          timestamp := now
          metadata :=
            [("version", .str cometMsg.version), ("step", .u32 cometMsg.step)] }

/-- Go `CometBFTMapper.GetSupportedTypes`. -/
def GetSupportedTypes : List MsgType :=
  [MsgTypeProposal, MsgTypePrevote, MsgTypePrecommit, MsgTypeBlock]

/-! ## Byzantine mutator (cometbft/adapter/byzantine.go) -/

/-- Go `ByzantineAction` is a string type. -/
abbrev ByzantineAction := String

def ByzantineActionNone : ByzantineAction := "none"

def ByzantineActionDoubleVote : ByzantineAction := "double_vote"

def ByzantineActionDoubleProposal : ByzantineAction := "double_proposal"

def ByzantineActionAlterValidator : ByzantineAction := "alter_validator"

def ByzantineActionDropSignature : ByzantineAction := "drop_signature"

def ByzantineActionTimestampSkew : ByzantineAction := "timestamp_skew"

/-- Go `ByzantineOptions`. -/
structure ByzantineOptions where
  alternateBlockHash : String
  alternatePrevHash : String
  alternateSignature : String
  alternateValidator : String
  roundOffset : Int
  heightOffset : Int
  timestampShift : Int
deriving DecidableEq

/-- The mutator reports failures through untyped `fmt.Errorf` values;
we tag each error site with the error-taxonomy category the design
assigns to it, carrying the exact Go message text.
`actionRequirementUnmet` covers the action-precondition messages,
`invalidOption` the missing-required-override message, `unknownAction`
the default switch arm, and `nilMessage` the nil-input guard. -/
inductive ByzantineError where
  | nilMessage
  | actionRequirementUnmet (message : String)
  | invalidOption (message : String)
  | unknownAction (action : String)
deriving DecidableEq

/-- Go `cloneCanonicalMessage` deep-copies every pointer and slice
field and leaves all values equal; under value semantics it is the
identity on non-nil messages. -/
def cloneCanonicalMessage (msg : CanonicalMessage) : CanonicalMessage := msg

/-- The character rewrite table inside `chooseAlternateHash`'s scan
loop: the switch over a single character. -/
def flipHexChar (c : Char) : Option Char :=
  if c = '0' then some '1'
  else if c = '1' then some '0'
  else if c = 'a' ∨ c = 'A' then some 'b'
  else if c = 'f' ∨ c = 'F' then some 'e'
  else none

/-- The scan loop of `chooseAlternateHash`, expressed on the reversed
character list (the Go loop walks the string from its last index). -/
def perturbRev : List Char → Option (List Char)
  | [] => none
  | c :: rest =>
    match flipHexChar c with
    | some c2 => some (c2 :: rest)
    | none => (perturbRev rest).map (fun l => c :: l)

/-- Go `chooseAlternateHash`. -/
def chooseAlternateHash (original provided : String) : String :=
  if provided ≠ "" then provided
  else if original = "" then
    "0000000000000000000000000000000000000000000000000000000000000000"
  else
    match perturbRev original.data.reverse with
    | some l => String.mk l.reverse
    | none => original ++ "0"

/-- Go `shiftBigInt`. -/
def shiftBigInt (value : Option Int) (offset : Int) : Option Int :=
  if offset = 0 then value
  else
    match value with
    | none => some offset
    | some v => some (v + offset)

/-- Go `applyCommonMutations`. -/
def applyCommonMutations (target : CanonicalMessage) (opts : ByzantineOptions) :
    CanonicalMessage :=
  let t1 :=
    if opts.heightOffset ≠ 0 then
      { target with height := shiftBigInt target.height opts.heightOffset }
    else target
  let t2 :=
    if opts.roundOffset ≠ 0 then
      { t1 with round := shiftBigInt t1.round opts.roundOffset }
    else t1
  if opts.timestampShift ≠ 0 then
    { t2 with timestamp := t2.timestamp + opts.timestampShift }
  else t2

/-- Go `ensureTimestampProgress`. -/
def ensureTimestampProgress (mutated : CanonicalMessage) (original : Int) : CanonicalMessage :=
  if original = 0 then mutated
  else if mutated.timestamp = original then
    { mutated with timestamp := mutated.timestamp + millisecond }
  else mutated

/-- Go `applyDoubleVoteMutation`. -/
def applyDoubleVoteMutation (msg : CanonicalMessage) (opts : ByzantineOptions) :
    Except ByzantineError (List CanonicalMessage) :=
  if msg.mtype ≠ MsgTypePrevote ∧ msg.mtype ≠ MsgTypePrecommit ∧ msg.mtype ≠ MsgTypeVote then
    .error (.actionRequirementUnmet "double_vote action requires a vote canonical message")
  else
    let original := cloneCanonicalMessage msg
    let m1 :=
      { cloneCanonicalMessage msg with
        blockHash := chooseAlternateHash msg.blockHash opts.alternateBlockHash }
    let m2 :=
      if opts.alternateSignature ≠ "" then { m1 with signature := opts.alternateSignature }
      else m1
    let m3 := ensureTimestampProgress (applyCommonMutations m2 opts) msg.timestamp
    .ok [original, m3]

/-- Go `applyDoubleProposalMutation`. -/
def applyDoubleProposalMutation (msg : CanonicalMessage) (opts : ByzantineOptions) :
    Except ByzantineError (List CanonicalMessage) :=
  if msg.mtype ≠ MsgTypeProposal then
    .error (.actionRequirementUnmet "double_proposal action requires a proposal canonical message")
  else
    let original := cloneCanonicalMessage msg
    let m1 :=
      { cloneCanonicalMessage msg with
        blockHash := chooseAlternateHash msg.blockHash opts.alternateBlockHash }
    let m2 :=
      if opts.alternatePrevHash ≠ "" then { m1 with prevHash := opts.alternatePrevHash }
      else if m1.prevHash = msg.prevHash then
        { m1 with prevHash := chooseAlternateHash msg.prevHash "" }
      else m1
    let m3 :=
      if opts.alternateSignature ≠ "" then { m2 with signature := opts.alternateSignature }
      else m2
    let m4 := ensureTimestampProgress (applyCommonMutations m3 opts) msg.timestamp
    .ok [original, m4]

/-- Go `applyAlterValidatorMutation`. -/
def applyAlterValidatorMutation (msg : CanonicalMessage) (opts : ByzantineOptions) :
    Except ByzantineError (List CanonicalMessage) :=
  if opts.alternateValidator = "" then
    .error (.invalidOption "alter_validator action requires AlternateValidator to be set")
  else
    let mutatedBase := cloneCanonicalMessage msg
    let mutated? : Except ByzantineError CanonicalMessage :=
      if msg.mtype = MsgTypePrevote ∨ msg.mtype = MsgTypePrecommit ∨ msg.mtype = MsgTypeVote then
        .ok { mutatedBase with validator := opts.alternateValidator }
      else if msg.mtype = MsgTypeProposal then
        .ok { mutatedBase with proposer := opts.alternateValidator }
      else
        .error
          (.actionRequirementUnmet "alter_validator action requires a proposal or vote canonical message")
    match mutated? with
    | .error e => .error e
    | .ok mutated =>
      .ok [ensureTimestampProgress (applyCommonMutations mutated opts) msg.timestamp]

/-- Go `applyDropSignatureMutation`. -/
def applyDropSignatureMutation (msg : CanonicalMessage) (opts : ByzantineOptions) :
    Except ByzantineError (List CanonicalMessage) :=
  let mutated := { cloneCanonicalMessage msg with signature := "" }
  .ok [ensureTimestampProgress (applyCommonMutations mutated opts) msg.timestamp]

/-- Go `applyTimestampSkewMutation`. -/
def applyTimestampSkewMutation (msg : CanonicalMessage) (opts : ByzantineOptions) :
    Except ByzantineError (List CanonicalMessage) :=
  if opts.timestampShift = 0 then
    .error (.actionRequirementUnmet "timestamp_skew action requires TimestampShift to be non-zero")
  else
    let mutated := cloneCanonicalMessage msg
    .ok [ensureTimestampProgress (applyCommonMutations mutated opts) msg.timestamp]

/-- Go `ApplyByzantineCanonical`.  A nil input message is `none`. -/
def ApplyByzantineCanonical (msg : Option CanonicalMessage) (action : ByzantineAction)
    (opts : ByzantineOptions) : Except ByzantineError (List CanonicalMessage) :=
  match msg with
  | none => .error .nilMessage
  | some m =>
    if action = ByzantineActionNone then .ok [cloneCanonicalMessage m]
    else if action = ByzantineActionDoubleVote then applyDoubleVoteMutation m opts
    else if action = ByzantineActionDoubleProposal then applyDoubleProposalMutation m opts
    else if action = ByzantineActionAlterValidator then applyAlterValidatorMutation m opts
    else if action = ByzantineActionDropSignature then applyDropSignatureMutation m opts
    else if action = ByzantineActionTimestampSkew then applyTimestampSkewMutation m opts
    else .error (.unknownAction action)

/-- Untyped Go `error` values crossing component boundaries: either a
structured codec error or a mutator error. -/
inductive GoError where
  | validation (e : MessageValidationError)
  | byz (e : ByzantineError)
deriving DecidableEq

/-- Encoding loop inside `FromCanonicalByzantine`: `FromCanonical`
applied to each mutated canonical in order, stopping at the first
failure. -/
def encodeCanonicals (chainID : String) (now : Int) :
    List CanonicalMessage → Except MessageValidationError (List RawConsensusMessage)
  | [] => .ok []
  | c :: rest =>
    match FromCanonical chainID now (some c) with
    | .error e => .error e
    | .ok raw =>
      match encodeCanonicals chainID now rest with
      | .error e => .error e
      | .ok raws => .ok (raw :: raws)

/-- Go `CometBFTMapper.FromCanonicalByzantine`. -/
def FromCanonicalByzantine (chainID : String) (now : Int) (msg : Option CanonicalMessage)
    (action : ByzantineAction) (opts : ByzantineOptions) :
    Except GoError (List RawConsensusMessage) :=
  match ApplyByzantineCanonical msg action opts with
  | .error e => .error (.byz e)
  | .ok canonicals =>
    match encodeCanonicals chainID now canonicals with
    | .error e => .error (.validation e)
    | .ok raws => .ok raws

/-! ## Validator (validator package) -/

/-- The parametric constraints stored per field in a ruleset's
`Constraints` map.  `checkConstraint` reads the keys `min` and
`max_age_seconds` when present.  The Go values are float64 literals
with integral values; we store them as integers. -/
structure ConstraintSpec where
  min : Option Int
  maxAgeSeconds : Option Int
deriving DecidableEq

/-- Go `CustomValidationRule`: a name, a description and a predicate
returning an error message on failure. -/
structure CustomValidationRule where
  name : String
  description : String
  fn : CanonicalMessage → Option String

/-- Go `ValidationRules`.  The Go `FieldTypes` and `Constraints` maps
are embedded as association lists in their literal order; iteration
order over Go maps is unspecified, and no theorem below depends on it. -/
structure ValidationRules where
  requiredFields : List String
  fieldTypes : List (String × String)
  constraints : List (String × ConstraintSpec)
  customRules : List CustomValidationRule

/-- Go `Validator`. -/
structure Validator where
  chainType : ChainType
  rules : ValidationRules

/-- Go `Validator.checkFieldPresent`. -/
def checkFieldPresent (msg : CanonicalMessage) (field : String) :
    Option MessageValidationError :=
  if field = "chain_id" then
    if msg.chainID = "" then
      some { field := field, message := "chain_id is required", code := "MISSING_FIELD" }
    else none
  else if field = "height" then
    if msg.height = none then
      some { field := field, message := "height is required", code := "MISSING_FIELD" }
    else none
  else if field = "timestamp" then
    if msg.timestamp = 0 then
      some { field := field, message := "timestamp is required", code := "MISSING_FIELD" }
    else none
  else if field = "type" then
    if msg.mtype = "" then
      some { field := field, message := "type is required", code := "MISSING_FIELD" }
    else none
  else if field = "round" then
    if msg.round = none then
      some { field := field, message := "round is required", code := "MISSING_FIELD" }
    else none
  else if field = "proposer" then
    if msg.proposer = "" then
      some { field := field, message := "proposer is required", code := "MISSING_FIELD" }
    else none
  else if field = "validator" then
    if msg.validator = "" then
      some { field := field, message := "validator is required", code := "MISSING_FIELD" }
    else none
  else if field = "signature" then
    if msg.signature = "" then
      some { field := field, message := "signature is required", code := "MISSING_FIELD" }
    else none
  else if field = "block_hash" then
    if msg.blockHash = "" then
      some { field := field, message := "block_hash is required", code := "MISSING_FIELD" }
    else none
  else none

/-- Go `Validator.checkFieldType`. -/
def checkFieldType (msg : CanonicalMessage) (field expectedType : String) :
    Option MessageValidationError :=
  let ok : Bool :=
    if field = "height" then msg.height ≠ none ∧ expectedType = "bigint"
    else if field = "round" then msg.round ≠ none ∧ expectedType = "bigint"
    else if field = "view" then msg.view ≠ none ∧ expectedType = "bigint"
    else if field = "timestamp" then msg.timestamp ≠ 0 ∧ expectedType = "time"
    else if field = "chain_id" then msg.chainID ≠ "" ∧ expectedType = "string"
    else if field = "type" then msg.mtype ≠ "" ∧ expectedType = "string"
    else false
  if ok then none
  else
    some { field := field
           message := "field " ++ field ++ " has incorrect type, expected " ++ expectedType
           code := "INVALID_FIELD_TYPE" }

/-- Seconds expressed in nanoseconds. -/
def secondNs : Int := 1000000000

/-- Go `Validator.checkConstraint`.  `now` is the wall clock read by
`time.Since`; the floating-point seconds comparison
`age > maxAgeSeconds` is exact for the integral rule values and is
embedded as an integer comparison in nanoseconds. -/
def checkConstraint (now : Int) (msg : CanonicalMessage) (field : String)
    (c : ConstraintSpec) : Option MessageValidationError :=
  if field = "height" then
    match msg.height, c.min with
    | some h, some mn =>
      if h < mn then
        some { field := field, message := "height below minimum", code := "CONSTRAINT_VIOLATION" }
      else none
    | _, _ => none
  else if field = "round" then
    match msg.round, c.min with
    | some r, some mn =>
      if r < mn then
        some { field := field, message := "round below minimum", code := "CONSTRAINT_VIOLATION" }
      else none
    | _, _ => none
  else if field = "timestamp" then
    if msg.timestamp ≠ 0 then
      match c.maxAgeSeconds with
      | some maxAge =>
        if now - msg.timestamp > maxAge * secondNs then
          some { field := field, message := "message is too old", code := "CONSTRAINT_VIOLATION" }
        else none
      | none => none
    else none
  else none

/-- First error produced by a per-element check, scanning in order
(the shared shape of the three rule-layer loops). -/
def firstErr {α : Type} (f : α → Option MessageValidationError) :
    List α → Option MessageValidationError
  | [] => none
  | x :: rest =>
    match f x with
    | some e => some e
    | none => firstErr f rest

/-- Go `validateCometBFTMessageType`. -/
def validateCometBFTMessageType (msg : CanonicalMessage) : Option String :=
  if msg.mtype = MsgTypeProposal ∨ msg.mtype = MsgTypePrevote
      ∨ msg.mtype = MsgTypePrecommit ∨ msg.mtype = MsgTypeBlock then none
  else some ("unsupported CometBFT message type: " ++ msg.mtype)

/-- Go `validateHyperledgerMessageType`. -/
def validateHyperledgerMessageType (msg : CanonicalMessage) : Option String :=
  if msg.mtype = MsgTypeProposal ∨ msg.mtype = MsgTypePrepare ∨ msg.mtype = MsgTypeCommit
      ∨ msg.mtype = MsgTypeViewChange ∨ msg.mtype = MsgTypeNewView then none
  else some ("unsupported Hyperledger message type: " ++ msg.mtype)

/-- Go `validateKaiaMessageType`. -/
def validateKaiaMessageType (msg : CanonicalMessage) : Option String :=
  if msg.mtype = MsgTypeProposal ∨ msg.mtype = MsgTypeVote ∨ msg.mtype = MsgTypeBlock then none
  else some ("unsupported Kaia message type: " ++ msg.mtype)

/-- Go `getDefaultRules`. -/
def getDefaultRules (chainType : ChainType) : ValidationRules :=
  if chainType = ChainTypeCometBFT then
    { requiredFields := ["chain_id", "height", "round", "timestamp", "type"]
      fieldTypes :=
        [("chain_id", "string"), ("height", "bigint"), ("round", "bigint"),
         ("timestamp", "time"), ("type", "string")]
      constraints :=
        [("height", { min := some 0, maxAgeSeconds := none }),
         ("round", { min := some 0, maxAgeSeconds := none }),
         ("timestamp", { min := none, maxAgeSeconds := some 3600 })]
      customRules :=
        [{ name := "cometbft_message_type"
           description := "Validate CometBFT-specific message types"
           fn := validateCometBFTMessageType }] }
  else if chainType = ChainTypeHyperledger then
    { requiredFields := ["chain_id", "height", "timestamp", "type"]
      fieldTypes :=
        [("chain_id", "string"), ("height", "bigint"), ("timestamp", "time"),
         ("type", "string")]
      constraints :=
        [("height", { min := some 0, maxAgeSeconds := none }),
         ("timestamp", { min := none, maxAgeSeconds := some 7200 })]
      customRules :=
        [{ name := "hyperledger_message_type"
           description := "Validate Hyperledger-specific message types"
           fn := validateHyperledgerMessageType }] }
  else if chainType = ChainTypeKaia then
    { requiredFields := ["chain_id", "height", "round", "timestamp", "type"]
      fieldTypes :=
        [("chain_id", "string"), ("height", "bigint"), ("round", "bigint"),
         ("timestamp", "time"), ("type", "string")]
      constraints :=
        [("height", { min := some 0, maxAgeSeconds := none }),
         ("round", { min := some 0, maxAgeSeconds := none }),
         ("timestamp", { min := none, maxAgeSeconds := some 1800 })]
      customRules :=
        [{ name := "kaia_message_type"
           description := "Validate Kaia-specific message types"
           fn := validateKaiaMessageType }] }
  else
    { requiredFields := ["chain_id", "height", "timestamp", "type"]
      fieldTypes :=
        [("chain_id", "string"), ("height", "bigint"), ("timestamp", "time"),
         ("type", "string")]
      constraints := []
      customRules := [] }

/-- Go `NewValidator`. -/
def NewValidator (chainType : ChainType) : Validator :=
  { chainType := chainType, rules := getDefaultRules chainType }

/-- Go `Validator.runCustomRules`. -/
def runCustomRules (rules : List CustomValidationRule) (msg : CanonicalMessage) :
    Option MessageValidationError :=
  firstErr
    (fun r =>
      match r.fn msg with
      | some errMsg =>
        some { field := r.name
               message := "custom validation failed: " ++ errMsg
               code := "CUSTOM_VALIDATION_FAILED" }
      | none => none)
    rules

/-- Go `Validator.Validate`.  A nil message is `none`; `now` is the
wall clock used by the timestamp-age constraint. -/
def Validate (v : Validator) (now : Int) (msg : Option CanonicalMessage) :
    Option MessageValidationError :=
  match msg with
  | none =>
    some { field := "message", message := "message cannot be nil", code := "MISSING_FIELD" }
  | some m =>
    match firstErr (checkFieldPresent m) v.rules.requiredFields with
    | some e => some e
    | none =>
      match firstErr (fun p => checkFieldType m p.1 p.2) v.rules.fieldTypes with
      | some e => some e
      | none =>
        match firstErr (fun p => checkConstraint now m p.1 p.2) v.rules.constraints with
        | some e => some e
        | none => runCustomRules v.rules.customRules m

/-! ## Proxy engine configuration and session (proxy/engine) -/

/-- Go `Direction`. -/
inductive Direction where
  | upstream
  | downstream
  | both
deriving DecidableEq

/-- Go `Direction.ShouldMutateUpstream`. -/
def Direction.shouldMutateUpstream : Direction → Bool
  | .upstream => true
  | .both => true
  | .downstream => false

/-- Go `Direction.ShouldMutateDownstream`. -/
def Direction.shouldMutateDownstream : Direction → Bool
  | .downstream => true
  | .both => true
  | .upstream => false

/-- Go `big.Int.Int64()`: the low 64 bits as two's complement. -/
def int64wrap (n : Int) : Int := (n + 2 ^ 63) % 2 ^ 64 - 2 ^ 63

/-- Go `strings.ToLower` restricted to per-character lowering. -/
def lowerStr (s : String) : String := String.mk (s.data.map Char.toLower)

/-- Go `Trigger`. -/
structure Trigger where
  height : Option Int
  round : Option Int
  step : String
deriving DecidableEq

/-- Go `Trigger.Matches`. -/
def Trigger.matches (t : Trigger) (msg : Option CanonicalMessage) : Bool :=
  match msg with
  | none => false
  | some m =>
    let heightOk : Bool :=
      match t.height with
      | none => true
      | some h =>
        match m.height with
        | none => false
        | some mh => int64wrap mh = h
    let roundOk : Bool :=
      match t.round with
      | none => true
      | some r =>
        match m.round with
        | none => false
        | some mr => int64wrap mr = r
    let stepOk : Bool := if t.step ≠ "" then lowerStr m.mtype = t.step else true
    heightOk && roundOk && stepOk

/-- Go `Hooks`. -/
structure Hooks where
  delay : Int
  drop : Bool
  duplicate : Bool
deriving DecidableEq

/-- The session-relevant part of the Go `Config`. -/
structure Config where
  chainID : String
  action : ByzantineAction
  options : ByzantineOptions
  trigger : Trigger
  hooks : Hooks
  direction : Direction

/-- Go `Metrics` counter values. -/
structure Metrics where
  mutated : Int
  dropped : Int
  duplicated : Int
  delayed : Int
deriving DecidableEq

/-- Consensus channel IDs (state, data, vote, vote-set-bits). -/
def isConsensusChannel (chID : Nat) : Bool :=
  chID = 0x20 ∨ chID = 0x21 ∨ chID = 0x22 ∨ chID = 0x23

/-- Observable effects of handling one inbound frame, in program
order: counter increments, the delay sleep, and each payload handed to
the opposite side's `Send`. -/
inductive SessionEvent where
  | delayedInc
  | sleep (d : Int)
  | droppedInc
  | sent (chID : Nat) (bytes : List Nat)
  | mutatedInc (n : Int)
  | duplicatedInc (n : Int)
deriving DecidableEq

/-- Outcome of `canonicalFromConsensus`: the conversion either yields
a canonical message, fails with `errUnsupportedMessage`, or fails with
another error. -/
inductive ConvertError where
  | unsupportedMessage
  | failed (s : String)
deriving DecidableEq

/-- Errors surfaced by `processConsensus` to its caller. -/
inductive SessionError where
  | decodeFailed (s : String)
  | convertFailed (s : String)
  | mutatorFailed (e : GoError)
  | encodeFailed (s : String)
deriving DecidableEq

/-- Go `session.applyByzantineAction`. -/
def applyByzantineAction (cfg : Config) (now : Int) (canonical : CanonicalMessage) :
    Except GoError (List RawConsensusMessage) :=
  if cfg.action = ByzantineActionNone then
    match FromCanonical cfg.chainID now (some canonical) with
    | .error e => .error (.validation e)
    | .ok raw => .ok [raw]
  else
    FromCanonicalByzantine cfg.chainID now (some canonical) cfg.action cfg.options

/-- The send loop at the end of `processConsensus`: each raw message
is re-encoded and forwarded (twice under the duplicate hook); the
first encode failure aborts the loop after the earlier sends.  Returns
the emitted events, the `sent` and `duplicateCount` tallies, and the
error if any. -/
def sendLoop (encodeRaw : RawConsensusMessage → Except String (List Nat))
    (dup : Bool) (chID : Nat) :
    List RawConsensusMessage → List SessionEvent × Int × Int × Option String
  | [] => ([], 0, 0, none)
  | r :: rest =>
    match encodeRaw r with
    | .error e => ([], 0, 0, some e)
    | .ok bytes =>
      let these :=
        if dup then [SessionEvent.sent chID bytes, SessionEvent.sent chID bytes]
        else [SessionEvent.sent chID bytes]
      let rec0 := sendLoop encodeRaw dup chID rest
      (these ++ rec0.1, (if dup then 2 else 1) + rec0.2.1,
       (if dup then 1 else 0) + rec0.2.2.1, rec0.2.2.2)

/-- Go `session.processConsensus`.  The protobuf decoder and the
consensus-to-canonical conversion live behind external serializers;
they enter the model as the function parameters `decode` and
`toCanon`, and the re-encoding of an outbound raw message as
`encodeRaw`.  Returns the ordered effect list and the error the method
returns. -/
def processConsensus {α : Type} (cfg : Config) (now : Int)
    (decode : List Nat → Except String α)
    (toCanon : α → Except ConvertError CanonicalMessage)
    (encodeRaw : RawConsensusMessage → Except String (List Nat))
    (chID : Nat) (payload : List Nat) : List SessionEvent × Option SessionError :=
  match decode payload with
  | .error e => ([], some (.decodeFailed e))
  | .ok m =>
    match toCanon m with
    | .error .unsupportedMessage => ([SessionEvent.sent chID payload], none)
    | .error (.failed e) => ([], some (.convertFailed e))
    | .ok canonical =>
      if ¬ cfg.trigger.matches (some canonical) then
        ([SessionEvent.sent chID payload], none)
      else
        let delayEvents :=
          if cfg.hooks.delay > 0 then [SessionEvent.delayedInc, SessionEvent.sleep cfg.hooks.delay]
          else []
        if cfg.hooks.drop then (delayEvents ++ [SessionEvent.droppedInc], none)
        else
          match applyByzantineAction cfg now canonical with
          | .error e => (delayEvents, some (.mutatorFailed e))
          | .ok raws =>
            let loop := sendLoop encodeRaw cfg.hooks.duplicate chID raws
            match loop.2.2.2 with
            | some e => (delayEvents ++ loop.1, some (.encodeFailed e))
            | none =>
              (delayEvents ++ loop.1 ++ [SessionEvent.mutatedInc loop.2.1]
                ++ (if loop.2.2.1 > 0 then [SessionEvent.duplicatedInc loop.2.2.1] else []),
               none)

/-- Go `session.handleUpstream`: mutate-eligible consensus frames go
through `processConsensus`; on error the raw frame is forwarded after
the effects already produced; everything else is forwarded raw. -/
def handleUpstream {α : Type} (cfg : Config) (now : Int)
    (decode : List Nat → Except String α)
    (toCanon : α → Except ConvertError CanonicalMessage)
    (encodeRaw : RawConsensusMessage → Except String (List Nat))
    (chID : Nat) (payload : List Nat) : List SessionEvent :=
  if cfg.direction.shouldMutateUpstream ∧ isConsensusChannel chID then
    match processConsensus cfg now decode toCanon encodeRaw chID payload with
    | (evs, none) => evs
    | (evs, some _) => evs ++ [SessionEvent.sent chID payload]
  else [SessionEvent.sent chID payload]

/-- Go `session.handleDownstream` (mirror image of `handleUpstream`). -/
def handleDownstream {α : Type} (cfg : Config) (now : Int)
    (decode : List Nat → Except String α)
    (toCanon : α → Except ConvertError CanonicalMessage)
    (encodeRaw : RawConsensusMessage → Except String (List Nat))
    (chID : Nat) (payload : List Nat) : List SessionEvent :=
  if cfg.direction.shouldMutateDownstream ∧ isConsensusChannel chID then
    match processConsensus cfg now decode toCanon encodeRaw chID payload with
    | (evs, none) => evs
    | (evs, some _) => evs ++ [SessionEvent.sent chID payload]
  else [SessionEvent.sent chID payload]

/-- Apply one session event to the metrics counters (`Metrics.IncXxx`
in the source: `IncMutated` ignores a zero delta, `IncDuplicated`
ignores non-positive counts, and the session only emits
`duplicatedInc` for positive counts). -/
def applyEvent (m : Metrics) : SessionEvent → Metrics
  | .delayedInc => { m with delayed := m.delayed + 1 }
  | .droppedInc => { m with dropped := m.dropped + 1 }
  | .mutatedInc n => if n ≠ 0 then { m with mutated := m.mutated + n } else m
  | .duplicatedInc n => if n > 0 then { m with duplicated := m.duplicated + n } else m
  | .sleep _ => m
  | .sent _ _ => m

/-- Fold of `applyEvent` over an effect list. -/
def applyEvents (m : Metrics) (evs : List SessionEvent) : Metrics :=
  evs.foldl applyEvent m

/-! ## Concrete inputs used by witnesses and counterexamples -/

/-- All-empty mutator options (the Go zero value). -/
def zeroByzOpts : ByzantineOptions :=
  { alternateBlockHash := ""
    alternatePrevHash := ""
    alternateSignature := ""
    alternateValidator := ""
    roundOffset := 0
    heightOffset := 0
    timestampShift := 0 }

/-- A concrete prevote canonical message. -/
def sampleMsg : CanonicalMessage :=
  { chainID := "test-chain"
    height := some 5
    round := some 1
    view := none
    timestamp := 1700000000000000000
    mtype := MsgTypePrevote
    blockHash := "aa"
    prevHash := ""
    proposer := ""
    validator := "validator-1"
    signature := "sig-1"
    commitSeals := []
    viewChanges := []
    extensions := []
    rawPayload := none }

/-- A concrete proposal canonical message. -/
def sampleProposal : CanonicalMessage :=
  { sampleMsg with mtype := MsgTypeProposal, proposer := "proposer-1", validator := "" }

/-- A raw CometBFT vote whose native vote subtype is the prevote
discriminator (`PrevoteType`, numeric subtype 1 on the wire). -/
def c1rawVote : RawConsensusMessage :=
  { chainType := ChainTypeCometBFT
    chainID := "test-chain"
    messageType := "Vote"
    payload := .cometJSON { zeroCometMsg with
      messageType := "Vote"
      voteType := "PrevoteType"
      height := some 1000
      round := some 0
      validatorAddress := "95CEC" }
    encoding := "json"
    timestamp := 0
    metadata := [] }

/-- A canonical message of type NewView (not CometBFT-supported). -/
def c2newView : CanonicalMessage := { sampleMsg with mtype := MsgTypeNewView }

/-- A raw message with an encoding outside the adapter's declared set. -/
def c3rawRlp : RawConsensusMessage :=
  { chainType := ChainTypeCometBFT
    chainID := "test-chain"
    messageType := "Vote"
    payload := .unparseable "rlp-bytes"
    encoding := "rlp"
    timestamp := 0
    metadata := [] }

/-- A canonical message at height 0. -/
def c4msgH0 : CanonicalMessage := { sampleMsg with height := some 0 }

/-- Options shifting the height down by one. -/
def c4optsUnderflow : ByzantineOptions := { zeroByzOpts with heightOffset := -1 }

/-- A prevote at a small non-zero timestamp. -/
def c5msgTs : CanonicalMessage := { sampleMsg with timestamp := 2000000 }

/-- Options with a negative timestamp shift of one millisecond. -/
def c5optsNeg : ByzantineOptions := { zeroByzOpts with timestampShift := -1000000 }

/-- Decides whether a mutator result is a two-element sequence whose
second timestamp strictly exceeds the first. -/
def timestampProgress : Except ByzantineError (List CanonicalMessage) → Bool
  | .ok [a, b] => a.timestamp < b.timestamp
  | _ => false

/-- A canonical message with the chain id set and no height. -/
def c8msgNoHeight : CanonicalMessage := { sampleMsg with height := none }

/-- A session configuration with an empty trigger and the drop hook. -/
def c9cfg : Config :=
  { chainID := "test-chain"
    action := ByzantineActionNone
    options := zeroByzOpts
    trigger := { height := none, round := none, step := "" }
    hooks := { delay := 0, drop := true, duplicate := false }
    direction := .both }

/-- A trivial frame decoder for the witness instantiation. -/
def c9decode : List Nat → Except String Unit := fun _ => .ok ()

/-- A trivial consensus-to-canonical conversion for the witness. -/
def c9toCanon : Unit → Except ConvertError CanonicalMessage := fun _ => .ok sampleMsg

/-- A trivial outbound encoder for the witness. -/
def c9encode : RawConsensusMessage → Except String (List Nat) := fun _ => .ok []

/-! ## Theorems -/

/-- C10: every public entry point is total on a nil canonical message:
the mutator rejects it for every action and options, `FromCanonical`
and `Validate` return MISSING_FIELD-coded errors, and `Trigger.Matches`
returns false. -/
theorem c10_nil_message_totality :
    (∀ (action : ByzantineAction) (opts : ByzantineOptions),
      ApplyByzantineCanonical none action opts = .error .nilMessage)
    ∧ (∀ (chainID : String) (now : Int),
      FromCanonical chainID now none =
        .error { field := "message", message := "message cannot be nil", code := "MISSING_FIELD" })
    ∧ (∀ (v : Validator) (now : Int),
      Validate v now none =
        some { field := "message", message := "message cannot be nil", code := "MISSING_FIELD" })
    ∧ (∀ t : Trigger, t.matches none = false) :=
  ⟨fun _ _ => rfl, fun _ _ => rfl, fun _ _ => rfl, fun _ => rfl⟩

/-- C6: the DoubleVote action on a canonical message whose type is not
Vote, Prevote or Precommit fails with the action-requirement error and
produces no outputs. -/
theorem c6_double_vote_requirement (msg : CanonicalMessage) (opts : ByzantineOptions)
    (h1 : msg.mtype ≠ MsgTypePrevote) (h2 : msg.mtype ≠ MsgTypePrecommit)
    (h3 : msg.mtype ≠ MsgTypeVote) :
    ApplyByzantineCanonical (some msg) ByzantineActionDoubleVote opts =
      .error (.actionRequirementUnmet "double_vote action requires a vote canonical message") := by
  have hne : ByzantineActionDoubleVote ≠ ByzantineActionNone := by decide
  have hreq : msg.mtype ≠ MsgTypePrevote ∧ msg.mtype ≠ MsgTypePrecommit ∧ msg.mtype ≠ MsgTypeVote :=
    ⟨h1, h2, h3⟩
  simp [ApplyByzantineCanonical, applyDoubleVoteMutation, hne, hreq]

/-- C6 witness: DoubleVote applied to a Proposal fails. -/
theorem c6_double_vote_requirement_witness :
    ApplyByzantineCanonical (some sampleProposal) ByzantineActionDoubleVote zeroByzOpts =
      .error (.actionRequirementUnmet "double_vote action requires a vote canonical message") :=
  c6_double_vote_requirement sampleProposal zeroByzOpts (by decide) (by decide) (by decide)

/-- C8: under the CometBFT (Tendermint) ruleset, a canonical message
with a non-empty chain id and a nil height fails validation with the
MISSING_FIELD error for the field named height, independently of every
other field and of the clock, so no later rule layer influences the
result. -/
theorem c8_validate_missing_height (msg : CanonicalMessage) (now : Int)
    (hchain : msg.chainID ≠ "") (hheight : msg.height = none) :
    Validate (NewValidator ChainTypeCometBFT) now (some msg) =
      some { field := "height", message := "height is required", code := "MISSING_FIELD" } := by
  simp [Validate, NewValidator, getDefaultRules, ChainTypeCometBFT, firstErr,
    checkFieldPresent, hchain, hheight]

/-- C8 witness: a concrete height-less message fails with
MissingField(height). -/
theorem c8_validate_missing_height_witness :
    Validate (NewValidator ChainTypeCometBFT) 0 (some c8msgNoHeight) =
      some { field := "height", message := "height is required", code := "MISSING_FIELD" } :=
  c8_validate_missing_height c8msgNoHeight 0 (by decide) (by decide)

/-- `fillTypeSpecific` never changes the canonical type. -/
theorem fillTypeSpecific_mtype (c : CanonicalMessage) (m : CometBFTConsensusMessage) :
    (fillTypeSpecific c m).mtype = c.mtype := by
  unfold fillTypeSpecific
  split <;> rfl

/-- C1 counterexample: a raw Vote carrying the prevote subtype
(`PrevoteType`, wire subtype 1) converts to the generic canonical Vote
type, not to Prevote. -/
theorem c1_vote_subtype_counterexample :
    ((ToCanonical "test-chain" c1rawVote).toOption.map CanonicalMessage.mtype) =
        some MsgTypeVote
      ∧ MsgTypeVote ≠ MsgTypePrevote := by
  constructor
  · rfl
  · decide

/-- C1 (amended): for every parseable raw message on the right chain,
`ToCanonical` assigns the canonical type by the native message-type
name alone: a raw Vote becomes the generic Vote type regardless of its
vote subtype, and a raw Proposal becomes Proposal. -/
theorem c1_to_canonical_type_mapping (chainID : String) (raw : RawConsensusMessage)
    (m : CometBFTConsensusMessage) (hct : raw.chainType = ChainTypeCometBFT)
    (henc : raw.encoding = "json") (hp : raw.payload = .cometJSON m) :
    ((ToCanonical chainID raw).toOption.map CanonicalMessage.mtype) =
        some (mapMessageType m.messageType)
      ∧ (m.messageType = "Vote" →
        ((ToCanonical chainID raw).toOption.map CanonicalMessage.mtype) = some MsgTypeVote)
      ∧ (m.messageType = "Proposal" →
        ((ToCanonical chainID raw).toOption.map CanonicalMessage.mtype) = some MsgTypeProposal) := by
  have hmain : ((ToCanonical chainID raw).toOption.map CanonicalMessage.mtype) =
      some (mapMessageType m.messageType) := by
    simp [ToCanonical, parsePayload, hct, henc, hp, fillTypeSpecific_mtype, Except.toOption]
  refine ⟨hmain, fun hv => ?_, fun hpr => ?_⟩
  · rw [hmain, hv]; rfl
  · rw [hmain, hpr]; rfl

/-- C1 witness: a concrete parseable proposal raw message maps to the
canonical Proposal type. -/
theorem c1_to_canonical_type_mapping_witness :
    ((ToCanonical "test-chain"
        { c1rawVote with
          messageType := "Proposal"
          payload := .cometJSON { zeroCometMsg with messageType := "Proposal" } }).toOption.map
      CanonicalMessage.mtype) = some MsgTypeProposal := by
  have h := c1_to_canonical_type_mapping "test-chain"
    { c1rawVote with
      messageType := "Proposal"
      payload := .cometJSON { zeroCometMsg with messageType := "Proposal" } }
    { zeroCometMsg with messageType := "Proposal" } rfl rfl rfl
  exact h.2.2 rfl

/-- C2 counterexample: `FromCanonical` of a NewView canonical message
succeeds (as a NewRoundStep raw message) instead of failing with an
UnsupportedType error. -/
theorem c2_new_view_counterexample :
    ((FromCanonical "test-chain" 0 (some c2newView)).toOption.map
      RawConsensusMessage.messageType) = some "NewRoundStep" := by
  rfl

/-- C2 (amended): `FromCanonical` never rejects an unsupported
canonical type: every type outside the supported set
{Proposal, Prevote, Precommit, Block} is encoded as a NewRoundStep
raw message. -/
theorem c2_from_canonical_default (chainID : String) (now : Int) (msg : CanonicalMessage)
    (h : msg.mtype ∉ GetSupportedTypes) :
    ((FromCanonical chainID now (some msg)).toOption.map RawConsensusMessage.messageType) =
      some "NewRoundStep" := by
  simp only [GetSupportedTypes, List.mem_cons, List.mem_singleton, not_or] at h
  obtain ⟨h1, h2, h3, h4⟩ := h
  simp [FromCanonical, buildCometMsg, h1, h2, h3, h4, Except.toOption]

/-- C2 witness: the NewView message is encoded as NewRoundStep. -/
theorem c2_from_canonical_default_witness :
    ((FromCanonical "test-chain" 0 (some c2newView)).toOption.map
      RawConsensusMessage.messageType) = some "NewRoundStep" ∧ True :=
  ⟨c2_from_canonical_default "test-chain" 0 c2newView (by decide), trivial⟩

/-- C3 counterexample: an unknown encoding tag is rejected with a
DECODE_FAILURE-coded error, not with an UnsupportedEncoding code. -/
theorem c3_encoding_counterexample :
    ToCanonical "test-chain" c3rawRlp =
      .error { field := "encoding", message := "unsupported encoding: rlp",
               code := "DECODE_FAILURE" } := by
  rfl

/-- C3 (amended): `ToCanonical` fails with the ChainMismatch error
when the raw chain tag differs from the adapter's, and with a
DECODE_FAILURE-coded error on the field named encoding when the
encoding tag is outside the declared set {json, proto}. -/
theorem c3_to_canonical_errors (chainID : String) (raw : RawConsensusMessage) :
    (raw.chainType ≠ ChainTypeCometBFT → ToCanonical chainID raw = .error ErrChainMismatch)
    ∧ (raw.chainType = ChainTypeCometBFT → raw.encoding ≠ "json" → raw.encoding ≠ "proto" →
      ToCanonical chainID raw =
        .error { field := "encoding", message := "unsupported encoding: " ++ raw.encoding,
                 code := "DECODE_FAILURE" }) := by
  constructor
  · intro h
    simp [ToCanonical, h]
  · intro hct h1 h2
    simp [ToCanonical, parsePayload, hct, h1, h2]

/-- C3 witness: a wrong-chain raw message yields ChainMismatch, and a
raw message with encoding rlp yields the DECODE_FAILURE-coded
encoding error. -/
theorem c3_to_canonical_errors_witness :
    ToCanonical "test-chain" { c3rawRlp with chainType := ChainTypeKaia } =
        .error ErrChainMismatch
      ∧ ToCanonical "test-chain" c3rawRlp =
        .error { field := "encoding", message := "unsupported encoding: rlp",
                 code := "DECODE_FAILURE" } :=
  ⟨(c3_to_canonical_errors "test-chain" { c3rawRlp with chainType := ChainTypeKaia }).1 (by decide),
   (c3_to_canonical_errors "test-chain" c3rawRlp).2 (by decide) (by decide) (by decide)⟩

/-- `shiftBigInt` on a present value is plain addition. -/
theorem shiftBigInt_some (h o : Int) : shiftBigInt (some h) o = some (h + o) := by
  unfold shiftBigInt
  by_cases ho : o = 0
  · simp [ho]
  · simp [ho]

/-- `applyCommonMutations` shifts the height by exactly the configured
offset (for any offset, including zero). -/
theorem applyCommonMutations_height (t : CanonicalMessage) (opts : ByzantineOptions) :
    (applyCommonMutations t opts).height = shiftBigInt t.height opts.heightOffset := by
  unfold applyCommonMutations shiftBigInt
  by_cases hh : opts.heightOffset = 0 <;> by_cases hr : opts.roundOffset = 0 <;>
    by_cases ht : opts.timestampShift = 0 <;> simp [hh, hr, ht]

/-- `ensureTimestampProgress` never changes the height. -/
theorem ensureTimestampProgress_height (m : CanonicalMessage) (orig : Int) :
    (ensureTimestampProgress m orig).height = m.height := by
  unfold ensureTimestampProgress
  split <;> try rfl
  split <;> rfl

/-- C4 counterexample: height 0 with height_offset -1 silently
produces an output of height -1; no InvalidOption error is raised. -/
theorem c4_underflow_counterexample :
    ((ApplyByzantineCanonical (some c4msgH0) ByzantineActionDropSignature
        c4optsUnderflow).toOption.map (List.map CanonicalMessage.height)) =
      some [some (-1)] := by
  rfl

/-- C4 (amended): the mutator applies the height offset
unconditionally: a DropSignature mutation of a message at height h
always succeeds with a single output whose height is h + offset, even
when that sum is negative; no InvalidOption error is produced. -/
theorem c4_height_offset_applied (msg : CanonicalMessage) (opts : ByzantineOptions) (h : Int)
    (hh : msg.height = some h) :
    ((ApplyByzantineCanonical (some msg) ByzantineActionDropSignature opts).toOption.map
      (List.map CanonicalMessage.height)) = some [some (h + opts.heightOffset)] := by
  have hact : (ByzantineActionDropSignature = ByzantineActionNone) = False := by
    simp [ByzantineActionDropSignature, ByzantineActionNone]
  simp only [ApplyByzantineCanonical, applyDropSignatureMutation]
  simp [ByzantineActionDropSignature, ByzantineActionNone, ByzantineActionDoubleVote,
    ByzantineActionDoubleProposal, ByzantineActionAlterValidator,
    ensureTimestampProgress_height, applyCommonMutations_height, cloneCanonicalMessage,
    hh, shiftBigInt_some, Except.toOption]

/-- C4 witness: a concrete message at height 5 with offset -1 is
mutated to height 4. -/
theorem c4_height_offset_applied_witness :
    ((ApplyByzantineCanonical (some sampleMsg) ByzantineActionDropSignature
        c4optsUnderflow).toOption.map (List.map CanonicalMessage.height)) =
      some [some 4] := by
  have h := c4_height_offset_applied sampleMsg c4optsUnderflow 5 (by decide)
  simpa using h

/-- `applyCommonMutations` shifts the timestamp by exactly the
configured shift (for any shift, including zero). -/
theorem applyCommonMutations_timestamp (t : CanonicalMessage) (opts : ByzantineOptions) :
    (applyCommonMutations t opts).timestamp = t.timestamp + opts.timestampShift := by
  unfold applyCommonMutations
  by_cases hh : opts.heightOffset = 0 <;> by_cases hr : opts.roundOffset = 0 <;>
    by_cases ht : opts.timestampShift = 0 <;> simp [hh, hr, ht]

/-- After the common mutations and the timestamp-progress fix-up, the
mutated timestamp strictly exceeds the original whenever the shift is
non-negative and the original timestamp and shift are not both zero. -/
theorem ensure_common_progress (m2 : CanonicalMessage) (opts : ByzantineOptions) (orig : Int)
    (hts : m2.timestamp = orig) (hs : 0 ≤ opts.timestampShift)
    (hnz : ¬(orig = 0 ∧ opts.timestampShift = 0)) :
    orig < (ensureTimestampProgress (applyCommonMutations m2 opts) orig).timestamp := by
  have hct : (applyCommonMutations m2 opts).timestamp = orig + opts.timestampShift := by
    rw [applyCommonMutations_timestamp, hts]
  unfold ensureTimestampProgress
  split_ifs with h0 heq
  · rw [hct]
    have hne : opts.timestampShift ≠ 0 := fun hc => hnz ⟨h0, hc⟩
    omega
  · show orig < (applyCommonMutations m2 opts).timestamp + millisecond
    rw [heq]
    simp [millisecond]
  · rw [hct]
    rw [hct] at heq
    have hne : opts.timestampShift ≠ 0 := by
      intro hc
      exact heq (by omega)
    omega

/-- C5 counterexample: a DoubleVote mutation with a negative timestamp
shift produces a second output whose timestamp is strictly below the
first output's (outputs [2000000, 1000000] ns). -/
theorem c5_negative_shift_counterexample :
    timestampProgress (ApplyByzantineCanonical (some c5msgTs) ByzantineActionDoubleVote
        c5optsNeg) = false
      ∧ ((ApplyByzantineCanonical (some c5msgTs) ByzantineActionDoubleVote
          c5optsNeg).toOption.map (List.map CanonicalMessage.timestamp)) =
        some [2000000, 1000000] := by
  constructor
  · rfl
  · rfl

/-- C5 (amended): for DoubleVote and DoubleProposal, the second
output's timestamp strictly exceeds the first's whenever the
configured timestamp shift is non-negative and the input timestamp and
shift are not both zero. -/
theorem c5_double_outputs_progress (msg : CanonicalMessage) (opts : ByzantineOptions)
    (hs : 0 ≤ opts.timestampShift)
    (hnz : ¬(msg.timestamp = 0 ∧ opts.timestampShift = 0)) :
    ((msg.mtype = MsgTypePrevote ∨ msg.mtype = MsgTypePrecommit ∨ msg.mtype = MsgTypeVote) →
      timestampProgress
        (ApplyByzantineCanonical (some msg) ByzantineActionDoubleVote opts) = true)
    ∧ (msg.mtype = MsgTypeProposal →
      timestampProgress
        (ApplyByzantineCanonical (some msg) ByzantineActionDoubleProposal opts) = true) := by
  constructor
  · intro hv
    have hcond :
        ¬(msg.mtype ≠ MsgTypePrevote ∧ msg.mtype ≠ MsgTypePrecommit ∧ msg.mtype ≠ MsgTypeVote) := by
      rcases hv with h | h | h <;> simp [h]
    have hred : ApplyByzantineCanonical (some msg) ByzantineActionDoubleVote opts =
        applyDoubleVoteMutation msg opts := rfl
    rw [hred]
    unfold applyDoubleVoteMutation
    rw [if_neg hcond]
    simp only [timestampProgress, cloneCanonicalMessage, decide_eq_true_eq]
    refine ensure_common_progress _ opts msg.timestamp ?_ hs hnz
    (repeat' split) <;> rfl
  · intro hp
    have hcond : ¬msg.mtype ≠ MsgTypeProposal := by simp [hp]
    have hred : ApplyByzantineCanonical (some msg) ByzantineActionDoubleProposal opts =
        applyDoubleProposalMutation msg opts := rfl
    rw [hred]
    unfold applyDoubleProposalMutation
    rw [if_neg hcond]
    simp only [timestampProgress, cloneCanonicalMessage, decide_eq_true_eq]
    refine ensure_common_progress _ opts msg.timestamp ?_ hs hnz
    (repeat' split) <;> rfl

/-- C5 witness: a concrete prevote with the zero options yields two
outputs with strictly increasing timestamps. -/
theorem c5_double_outputs_progress_witness :
    timestampProgress (ApplyByzantineCanonical (some sampleMsg) ByzantineActionDoubleVote
      zeroByzOpts) = true :=
  (c5_double_outputs_progress sampleMsg zeroByzOpts (by decide) (by decide)).1
    (Or.inl (by decide))

/-- `processConsensus` with an armed trigger and the drop hook emits
only the delay prefix and the dropped-counter increment, and reports
no error. -/
theorem processConsensus_drop {α : Type} (cfg : Config) (now : Int)
    (decode : List Nat → Except String α)
    (toCanon : α → Except ConvertError CanonicalMessage)
    (encodeRaw : RawConsensusMessage → Except String (List Nat)) (chID : Nat)
    (payload : List Nat) (m : α) (c : CanonicalMessage)
    (hdec : decode payload = .ok m) (hconv : toCanon m = .ok c)
    (htrig : cfg.trigger.matches (some c) = true) (hdrop : cfg.hooks.drop = true) :
    processConsensus cfg now decode toCanon encodeRaw chID payload =
      ((if cfg.hooks.delay > 0 then
          [SessionEvent.delayedInc, SessionEvent.sleep cfg.hooks.delay]
        else []) ++ [SessionEvent.droppedInc], none) := by
  unfold processConsensus
  simp [hdec, hconv, htrig, hdrop]

/-- C9: when an inbound consensus frame decodes and converts to a
canonical message that matches the trigger while the drop hook is set,
the session forwards nothing for that frame in either mutating
direction, the dropped counter rises by exactly one, and the emitted
effects are exactly the delay prefix (when a delay is configured)
followed by the drop. -/
theorem c9_drop_no_forward {α : Type} (cfg : Config) (now : Int)
    (decode : List Nat → Except String α)
    (toCanon : α → Except ConvertError CanonicalMessage)
    (encodeRaw : RawConsensusMessage → Except String (List Nat)) (chID : Nat)
    (payload : List Nat) (m : α) (c : CanonicalMessage) (metrics : Metrics)
    (hch : isConsensusChannel chID = true) (hdec : decode payload = .ok m)
    (hconv : toCanon m = .ok c) (htrig : cfg.trigger.matches (some c) = true)
    (hdrop : cfg.hooks.drop = true) :
    (cfg.direction.shouldMutateUpstream = true →
      handleUpstream cfg now decode toCanon encodeRaw chID payload =
          (if cfg.hooks.delay > 0 then
            [SessionEvent.delayedInc, SessionEvent.sleep cfg.hooks.delay]
          else []) ++ [SessionEvent.droppedInc]
        ∧ (∀ ch bytes, SessionEvent.sent ch bytes ∉
            handleUpstream cfg now decode toCanon encodeRaw chID payload)
        ∧ (applyEvents metrics
            (handleUpstream cfg now decode toCanon encodeRaw chID payload)).dropped =
          metrics.dropped + 1)
    ∧ (cfg.direction.shouldMutateDownstream = true →
      handleDownstream cfg now decode toCanon encodeRaw chID payload =
          (if cfg.hooks.delay > 0 then
            [SessionEvent.delayedInc, SessionEvent.sleep cfg.hooks.delay]
          else []) ++ [SessionEvent.droppedInc]
        ∧ (∀ ch bytes, SessionEvent.sent ch bytes ∉
            handleDownstream cfg now decode toCanon encodeRaw chID payload)
        ∧ (applyEvents metrics
            (handleDownstream cfg now decode toCanon encodeRaw chID payload)).dropped =
          metrics.dropped + 1) := by
  have hp := processConsensus_drop cfg now decode toCanon encodeRaw chID payload m c
    hdec hconv htrig hdrop
  constructor
  · intro hdir
    have he : handleUpstream cfg now decode toCanon encodeRaw chID payload =
        (if cfg.hooks.delay > 0 then
          [SessionEvent.delayedInc, SessionEvent.sleep cfg.hooks.delay]
        else []) ++ [SessionEvent.droppedInc] := by
      unfold handleUpstream
      rw [if_pos ⟨hdir, hch⟩, hp]
    refine ⟨he, ?_, ?_⟩
    · intro ch bytes
      rw [he]
      by_cases hd : cfg.hooks.delay > 0 <;> simp [hd]
    · rw [he]
      by_cases hd : cfg.hooks.delay > 0 <;> simp [hd, applyEvents, applyEvent]
  · intro hdir
    have he : handleDownstream cfg now decode toCanon encodeRaw chID payload =
        (if cfg.hooks.delay > 0 then
          [SessionEvent.delayedInc, SessionEvent.sleep cfg.hooks.delay]
        else []) ++ [SessionEvent.droppedInc] := by
      unfold handleDownstream
      rw [if_pos ⟨hdir, hch⟩, hp]
    refine ⟨he, ?_, ?_⟩
    · intro ch bytes
      rw [he]
      by_cases hd : cfg.hooks.delay > 0 <;> simp [hd]
    · rw [he]
      by_cases hd : cfg.hooks.delay > 0 <;> simp [hd, applyEvents, applyEvent]

/-- C9 witness: a concrete dropped frame produces exactly the
dropped-counter increment and no sends. -/
theorem c9_drop_no_forward_witness :
    handleUpstream c9cfg 0 c9decode c9toCanon c9encode 0x20 [] =
      [SessionEvent.droppedInc] := by
  have h := (c9_drop_no_forward c9cfg 0 c9decode c9toCanon c9encode 0x20 [] () sampleMsg
    { mutated := 0, dropped := 0, duplicated := 0, delayed := 0 }
    (by decide) rfl rfl (by decide) rfl).1 rfl
  simpa using h.1

/-- A flipped hex character is always different from the original. -/
theorem flipHexChar_changes (c c2 : Char) (h : flipHexChar c = some c2) : c2 ≠ c := by
  unfold flipHexChar at h
  split_ifs at h with h1 h2 h3 h4
  · cases h; subst h1; decide
  · cases h; subst h2; decide
  · cases h; rcases h3 with h3 | h3 <;> (subst h3; decide)
  · cases h; rcases h4 with h4 | h4 <;> (subst h4; decide)

/-- The scan finds nothing exactly when no character is flippable. -/
theorem perturbRev_eq_none (l : List Char) :
    perturbRev l = none ↔ ∀ c ∈ l, flipHexChar c = none := by
  induction l with
  | nil => simp [perturbRev]
  | cons c rest ih =>
    cases hc : flipHexChar c with
    | some c2 => simp [perturbRev, hc]
    | none => simp [perturbRev, hc, Option.map_eq_none', ih]

/-- A prefix of unflippable characters passes through the scan. -/
theorem perturbRev_append_of_none (u v : List Char) (hu : ∀ d ∈ u, flipHexChar d = none) :
    perturbRev (u ++ v) = (perturbRev v).map (fun l => u ++ l) := by
  induction u with
  | nil =>
    cases hv : perturbRev v <;> simp [hv]
  | cons d u ih =>
    have hd : flipHexChar d = none := hu d (by simp)
    have hu2 : ∀ x ∈ u, flipHexChar x = none := fun x hx => hu x (by simp [hx])
    simp only [List.cons_append, perturbRev, hd, ih hu2]
    cases hv : perturbRev v <;> simp [hv, ih hu2]

/-- A successful scan splits the list at the first flippable character
and rewrites only that character. -/
theorem perturbRev_some_decomp (l : List Char) :
    ∀ l2, perturbRev l = some l2 →
      ∃ u c c2 w, l = u ++ c :: w ∧ l2 = u ++ c2 :: w ∧ flipHexChar c = some c2
        ∧ ∀ d ∈ u, flipHexChar d = none := by
  induction l with
  | nil => intro l2 h; simp [perturbRev] at h
  | cons c rest ih =>
    intro l2 h
    simp only [perturbRev] at h
    cases hc : flipHexChar c with
    | some c2 =>
      rw [hc] at h
      cases h
      exact ⟨[], c, c2, rest, by simp, by simp, hc, by simp⟩
    | none =>
      rw [hc] at h
      cases hr : perturbRev rest with
      | none => rw [hr] at h; cases h
      | some l1 =>
        rw [hr] at h
        simp only [Option.map_some', Option.some.injEq] at h
        obtain ⟨u, c0, c2, w, hl, hl2, hflip, hnone⟩ := ih l1 hr
        refine ⟨c :: u, c0, c2, w, by simp [hl], ?_, hflip, ?_⟩
        · rw [← h, hl2]; rfl
        · intro d hd
          rcases List.mem_cons.mp hd with h1 | h1
          · subst h1; exact hc
          · exact hnone d h1

/-- C7: the default hex-perturbation is exactly the described
function: scanning from the last character, the first character in the
table 0↔1, a/A→b, f/F→e is rewritten and the rest of the string kept;
with no such character the string gets a trailing 0; the empty string
becomes the 64-character zero hash; and the result always differs from
the input. -/
theorem c7_hex_perturbation :
    (flipHexChar '0' = some '1' ∧ flipHexChar '1' = some '0' ∧ flipHexChar 'a' = some 'b'
      ∧ flipHexChar 'A' = some 'b' ∧ flipHexChar 'f' = some 'e' ∧ flipHexChar 'F' = some 'e'
      ∧ ∀ c : Char, c ≠ '0' → c ≠ '1' → c ≠ 'a' → c ≠ 'A' → c ≠ 'f' → c ≠ 'F' →
        flipHexChar c = none)
    ∧ chooseAlternateHash "" "" =
        "0000000000000000000000000000000000000000000000000000000000000000"
    ∧ (∀ s : String, s ≠ "" → (∀ c ∈ s.data, flipHexChar c = none) →
      chooseAlternateHash s "" = s ++ "0")
    ∧ (∀ (a b : List Char) (c c2 : Char), flipHexChar c = some c2 →
      (∀ d ∈ b, flipHexChar d = none) →
      chooseAlternateHash (String.mk (a ++ c :: b)) "" = String.mk (a ++ c2 :: b))
    ∧ (∀ s : String, chooseAlternateHash s "" ≠ s) := by
  refine ⟨⟨by decide, by decide, by decide, by decide, by decide, by decide, ?_⟩, by decide,
    ?_, ?_, ?_⟩
  · intro c h1 h2 h3 h4 h5 h6
    simp [flipHexChar, h1, h2, h3, h4, h5, h6]
  · intro s hs hall
    have hnone : perturbRev s.data.reverse = none :=
      (perturbRev_eq_none _).mpr fun c hc => hall c (List.mem_reverse.mp hc)
    simp [chooseAlternateHash, hs, hnone]
  · intro a b c c2 hflip hb
    have hsne : String.mk (a ++ c :: b) ≠ "" := by
      intro h
      have hd := congrArg String.data h
      simp at hd
    have hpr : perturbRev (b.reverse ++ c :: a.reverse) = some (b.reverse ++ c2 :: a.reverse) := by
      rw [perturbRev_append_of_none b.reverse (c :: a.reverse)
        (fun d hd => hb d (List.mem_reverse.mp hd))]
      simp [perturbRev, hflip]
    have hres : (b.reverse ++ c2 :: a.reverse).reverse = a ++ c2 :: b := by
      simp [List.reverse_append]
    simp [chooseAlternateHash, hsne, hpr, hres]
  · intro s
    unfold chooseAlternateHash
    rw [if_neg (by simp)]
    by_cases hs : s = ""
    · subst hs
      simp only [if_pos rfl]
      decide
    · rw [if_neg hs]
      cases hpr : perturbRev s.data.reverse with
      | none =>
        simp only [hpr]
        intro h
        have hlen := congrArg String.length h
        rw [String.length_append] at hlen
        have h0 : "0".length = 1 := rfl
        omega
      | some l =>
        simp only [hpr]
        obtain ⟨u, c, c2, w, hl, hl2, hflip, hu⟩ := perturbRev_some_decomp _ l hpr
        intro heq
        have hdata : l.reverse = s.data := congrArg String.data heq
        have h1 : s.data = w.reverse ++ c :: u.reverse := by
          have := congrArg List.reverse hl
          simpa [List.reverse_append] using this
        have h2 : l.reverse = w.reverse ++ c2 :: u.reverse := by
          rw [hl2]; simp [List.reverse_append]
        rw [h2, h1] at hdata
        have hcons := List.append_cancel_left hdata
        have hc2 : c2 = c := by
          injection hcons with hh _
        exact flipHexChar_changes c c2 hflip hc2

/-- C7 witness: a string without flippable characters gets a trailing
zero appended. -/
theorem c7_hex_perturbation_witness :
    chooseAlternateHash "xyz" "" = "xyz" ++ "0" :=
  c7_hex_perturbation.2.2.1 "xyz" (by decide) (by decide)

end ByzSim
